import Mathlib

/-!
Verification of the LEDMatrix plugin store manager
(`src/plugin_system/store_manager.py`) against its natural-language
specification.  The Python code is shallowly embedded: each relevant
method becomes an executable Lean function over explicit state
(filesystem contents, caches, network responses are passed as values),
and the spec's claims become theorems about those functions.
-/

namespace StoreManager

/-! ## Branch-candidate selection (`_distinct_sequence`, install_plugin lines 816-864)

`_distinct_sequence(values)` iterates over the list keeping a `seen` set,
skipping falsey entries (Python `None` or `""`, both modelled as `""`)
and entries already seen, appending fresh ones in order. -/

/-- Recursive worker mirroring the `seen` set / `ordered` list loop of
`_distinct_sequence`.  Membership in the Lean list `seen` plays the role
of membership in the Python set. -/
def distinctGo (seen : List String) : List String → List String
  | [] => []
  | v :: vs =>
    if v = "" then distinctGo seen vs
    else if v ∈ seen then distinctGo seen vs
    else v :: distinctGo (v :: seen) vs

/-- Embedding of `PluginStoreManager._distinct_sequence` (store_manager.py
lines 180-192): order-preserving removal of duplicates and falsey entries. -/
def distinct_sequence (values : List String) : List String :=
  distinctGo [] values

/-- Specification-side description of the candidate list: drop empty
entries and remove duplicates keeping the first occurrence. -/
def dedupFirstNonempty : List String → List String
  | [] => []
  | v :: vs =>
    if v = "" then dedupFirstNonempty vs
    else v :: dedupFirstNonempty (vs.filter (fun w => decide (w ≠ v)))
termination_by l => l.length
decreasing_by
  · simp
  · have h := List.length_filter_le (fun w => decide (w ≠ v)) vs
    simp only [List.length_cons]
    omega

theorem distinctGo_eq (seen : List String) (l : List String) :
    distinctGo seen l = dedupFirstNonempty (l.filter (fun v => decide (v ∉ seen))) := by
  induction l generalizing seen with
  | nil => simp [distinctGo, dedupFirstNonempty]
  | cons v vs ih =>
    by_cases hv : v = ""
    · subst hv
      by_cases hseen : ("" : String) ∈ seen
      · simp [distinctGo, List.filter_cons, hseen, ih]
      · simp [distinctGo, List.filter_cons, hseen, ih, dedupFirstNonempty]
    · by_cases hseen : v ∈ seen
      · simp [distinctGo, hv, hseen, List.filter_cons, ih]
      · have hfilter :
            (vs.filter (fun w => decide (w ∉ seen))).filter (fun w => decide (w ≠ v))
              = vs.filter (fun w => decide (w ∉ v :: seen)) := by
          rw [List.filter_filter]
          apply List.filter_congr
          intro w _
          by_cases hwv : w = v
          · subst hwv; simp [hseen]
          · simp [hwv]
        have hL : distinctGo seen (v :: vs) = v :: distinctGo (v :: seen) vs := by
          simp [distinctGo, hv, hseen]
        have hcons : (v :: vs).filter (fun w => decide (w ∉ seen))
            = v :: vs.filter (fun w => decide (w ∉ seen)) := by
          simp [List.filter_cons, hseen]
        have hR : dedupFirstNonempty (v :: vs.filter (fun w => decide (w ∉ seen)))
            = v :: dedupFirstNonempty
                ((vs.filter (fun w => decide (w ∉ seen))).filter (fun w => decide (w ≠ v))) := by
          simp [dedupFirstNonempty, hv]
        rw [hL, hcons, hR, hfilter, ih (v :: seen)]

/-- `_distinct_sequence` computes exactly the spec's order-preserving
de-duplication of the non-empty entries. -/
theorem distinct_sequence_eq (l : List String) :
    distinct_sequence l = dedupFirstNonempty l := by
  have h := distinctGo_eq [] l
  simpa [distinct_sequence] using h

/-- Candidate list built by `install_plugin` (lines 818-825): the
user-requested branch, the registry branch, the registry default branch,
the last-known commit branch, then "main" and "master"; absent optional
fields are Python `None`, modelled as `""`. -/
def installCandidates (requested registryBranch defaultBranch lastCommitBranch : String) :
    List String :=
  distinct_sequence [requested, registryBranch, defaultBranch, lastCommitBranch,
    "main", "master"]

/-- The candidate loop of `install_plugin` (monorepo path, lines 842-846,
and the archive-download fallback, lines 856-860): try candidates in
order, stop at the first branch for which the acquisition succeeds. -/
def firstSuccessBranch (ok : String → Bool) : List String → Option String
  | [] => none
  | c :: cs => if ok c then some c else firstSuccessBranch ok cs

theorem firstSuccessBranch_spec (ok : String → Bool) :
    ∀ cs c, firstSuccessBranch ok cs = some c →
      ok c = true ∧ ∃ l₁ l₂, cs = l₁ ++ c :: l₂ ∧ ∀ x ∈ l₁, ok x = false := by
  intro cs
  induction cs with
  | nil => intro c h; simp [firstSuccessBranch] at h
  | cons d ds ih =>
    intro c h
    by_cases hd : ok d
    · simp [firstSuccessBranch, hd] at h
      subst h
      exact ⟨hd, [], ds, by simp⟩
    · simp [firstSuccessBranch, hd] at h
      obtain ⟨hok, l₁, l₂, hsplit, hfail⟩ := ih c h
      refine ⟨hok, d :: l₁, l₂, by simp [hsplit], ?_⟩
      intro x hx
      rcases List.mem_cons.mp hx with hx | hx
      · subst hx; simpa using hd
      · exact hfail x hx

/-- Acquisition strategies used by `install_plugin` when no monorepo
sub-path is configured (lines 851-864): a shallow git clone per branch
candidate, then an archive download per branch candidate. -/
inductive AcqStrategy
  | gitClone
  | archive
deriving DecidableEq

/-- Strategy/branch selection of `install_plugin` without a sub-path
(lines 851-864): `_install_via_git` tries each candidate in order, then a
clone without a branch constraint (reported as `none`); only if all of
that fails does the archive download loop run over the candidates. -/
def installNoSubpathBranch (gitOk : String → Bool) (gitDefaultOk : Bool)
    (dlOk : String → Bool) (cands : List String) :
    Option (AcqStrategy × Option String) :=
  match firstSuccessBranch gitOk cands with
  | some b => some (AcqStrategy.gitClone, some b)
  | none =>
    if gitDefaultOk then some (AcqStrategy.gitClone, none)
    else
      match firstSuccessBranch dlOk cands with
      | some b => some (AcqStrategy.archive, some b)
      | none => none

/-- C5: for every call to `install_plugin(plugin_id, branch)`, the branch
candidates are exactly `[requested, registry branch, registry default
branch, last-known commit branch, "main", "master"]` with empty/absent
entries dropped and first-occurrence de-duplication; candidates are tried
in that order and the first successful (strategy, branch) pair is the one
reported. -/
theorem install_plugin_candidates_first_success :
    (∀ r rb db lcb, installCandidates r rb db lcb
        = dedupFirstNonempty [r, rb, db, lcb, "main", "master"]) ∧
    (∀ ok cands c, firstSuccessBranch ok cands = some c →
        ok c = true ∧ ∃ l₁ l₂, cands = l₁ ++ c :: l₂ ∧ ∀ x ∈ l₁, ok x = false) ∧
    (∀ gitOk gdef dlOk cands s b,
        installNoSubpathBranch gitOk gdef dlOk cands = some (s, some b) →
        (s = AcqStrategy.gitClone → firstSuccessBranch gitOk cands = some b) ∧
        (s = AcqStrategy.archive → firstSuccessBranch gitOk cands = none ∧
          gdef = false ∧ firstSuccessBranch dlOk cands = some b)) := by
  refine ⟨fun r rb db lcb => distinct_sequence_eq _, firstSuccessBranch_spec, ?_⟩
  intro gitOk gdef dlOk cands s b h
  unfold installNoSubpathBranch at h
  cases hg : firstSuccessBranch gitOk cands with
  | some bg =>
    rw [hg] at h
    simp only [Option.some.injEq, Prod.mk.injEq] at h
    obtain ⟨hs, hb⟩ := h
    refine ⟨fun _ => congrArg some hb, fun hsa => ?_⟩
    exact absurd (hs.trans hsa) (by decide)
  | none =>
    rw [hg] at h
    by_cases hd : gdef = true
    · rw [if_pos hd] at h
      simp at h
    · rw [if_neg hd] at h
      cases hdl : firstSuccessBranch dlOk cands with
      | some bd =>
        rw [hdl] at h
        simp only [Option.some.injEq, Prod.mk.injEq] at h
        obtain ⟨hs, hb⟩ := h
        refine ⟨fun hsg => absurd (hs.trans hsg) (by decide), fun _ => ?_⟩
        exact ⟨rfl, Bool.not_eq_true gdef ▸ hd, congrArg some hb⟩
      | none =>
        rw [hdl] at h
        simp at h

/-- Witness for the candidate-selection claim: with candidates
["main", "master"] where only "master" succeeds, the first success is
"master", and in the no-subpath flow the archive strategy reporting
"master" implies every git attempt failed first. -/
theorem install_plugin_candidates_first_success_witness :
    ((fun b => decide (b = "master")) "master" = true ∧
      ∃ l₁ l₂, ["main", "master"] = l₁ ++ "master" :: l₂ ∧
        ∀ x ∈ l₁, (fun b => decide (b = "master")) x = false) ∧
    (AcqStrategy.archive = AcqStrategy.archive →
      firstSuccessBranch (fun _ => false) ["main", "master"] = none ∧
      false = false ∧
      firstSuccessBranch (fun b => decide (b = "master")) ["main", "master"]
        = some "master") :=
  ⟨install_plugin_candidates_first_success.2.1 (fun b => decide (b = "master"))
      ["main", "master"] "master" (by decide),
    (install_plugin_candidates_first_success.2.2 (fun _ => false) false
      (fun b => decide (b = "master")) ["main", "master"] AcqStrategy.archive "master"
      (by decide)).2⟩

/-! ## Path resolution and traversal checks

The Python code guards writes with
`dest.resolve().is_relative_to(root.resolve())`.  With no symlinks
involved (these code paths only create regular files), `resolve()` is the
lexical normalization of the joined path: "." segments are dropped and
".." pops the previous segment (staying at the filesystem root when
already there).  A destination is inside the root iff the root's segment
list is a prefix of the normalized result. -/

/-- Structural splitting of a character list at a separator, matching
Python's `str.split(sep)` on single-character separators (Lean's own
`String.splitOn` is defined by well-founded recursion and does not
evaluate inside the kernel, so the claims' concrete witnesses could not
be checked with it). -/
def splitCharsOn (sep : Char) : List Char → List (List Char)
  | [] => [[]]
  | c :: cs =>
    let rest := splitCharsOn sep cs
    if c = sep then [] :: rest
    else (c :: rest.headD []) :: rest.tail

/-- Python `s.split('/')`. -/
def strSplitSlash (s : String) : List String :=
  (splitCharsOn '/' s.data).map String.mk

/-- Python `s.startswith(pre)`. -/
def strStartsWith (s pre : String) : Bool :=
  List.isPrefixOf pre.data s.data

/-- Python `s[n:]` (slicing by character count). -/
def strDrop (s : String) (n : Nat) : String :=
  String.mk (s.data.drop n)

/-- Character count of a string. -/
def strLen (s : String) : Nat := s.data.length

/-- Split a relative path into its non-empty segments. -/
def pathSegs (s : String) : List String :=
  (strSplitSlash s).filter (fun x => decide (x ≠ ""))

/-- One step of lexical path normalization over a reversed segment stack. -/
def resolveStep (stack : List String) (seg : String) : List String :=
  if seg = "." then stack
  else if seg = ".." then stack.tail
  else seg :: stack

/-- Resolved absolute path (as a segment list) of `base / rel`. -/
def resolvePath (base : List String) (rel : String) : List String :=
  ((pathSegs rel).foldl resolveStep base.reverse).reverse

/-- The `is_relative_to` check after resolution: the base directory's
segments remain a prefix of the resolved destination. -/
def destInside (base : List String) (rel : String) : Bool :=
  List.isPrefixOf base (resolvePath base rel)

/-! ## Monorepo acquisition (`_install_from_monorepo*`, `_install_via_download`) -/

/-- One entry of the recursive git tree listing. -/
structure TreeEntry where
  path : String
  type : String
deriving DecidableEq

/-- Strip leading and trailing slashes, as Python's `strip('/')`. -/
def stripSlashes (s : String) : String :=
  String.mk (((s.data.dropWhile (fun c => c = '/')).reverse.dropWhile
    (fun c => c = '/')).reverse)

/-- The tree filter key of `_install_from_monorepo_api` line 1292:
`f"{plugin_subpath.strip('/')}/"`. -/
def subpathKey (subpath : String) : String := stripSlashes subpath ++ "/"

/-- File entries under the sub-path (`_install_from_monorepo_api` lines
1292-1296): paths starting with the key whose type is "blob". -/
def matchedEntries (tree : List TreeEntry) (subpath : String) : List TreeEntry :=
  tree.filter (fun e => strStartsWith e.path (subpathKey subpath) && e.type == "blob")

/-- File-count ceiling of `_install_from_monorepo_api` line 1303. -/
def max_files : Nat := 500

/-- Outcome classification of `_install_from_monorepo_api`: every
non-success return is `False` in Python (triggering the ZIP fallback);
the constructor records why. -/
inductive ApiOutcome
  | success
  | httpTreeFail
  | truncatedFail
  | noFiles
  | tooManyFiles
  | securityError (p : String)
  | fileDownloadFail (p : String)
deriving DecidableEq

/-- Filesystem/network effects of the API strategy: the target
directory's contents (`none` = directory absent) and the raw-content
downloads attempted. -/
structure ApiState where
  targetFiles : Option (List String)
  downloads : List String
deriving DecidableEq

/-- Writing loop of `_install_from_monorepo_api` (lines 1321-1350): for
each entry compute the relative destination, reject (and remove the whole
target directory) if it resolves outside the target, otherwise download
the file; a failed download also removes the target directory. -/
def apiWriteLoop (root : List String) (key : String) (fileOk : String → Bool) :
    List TreeEntry → ApiState → ApiOutcome × ApiState
  | [], st => (ApiOutcome.success, st)
  | e :: es, st =>
    let rel := strDrop e.path (strLen key)
    if destInside root rel = false then
      (ApiOutcome.securityError e.path, { st with targetFiles := none })
    else if fileOk e.path then
      apiWriteLoop root key fileOk es
        { targetFiles := some ((st.targetFiles.getD []) ++ [rel]),
          downloads := st.downloads ++ [e.path] }
    else
      (ApiOutcome.fileDownloadFail e.path,
        { targetFiles := none, downloads := st.downloads ++ [e.path] })

/-- Embedding of `_install_from_monorepo_api` (lines 1245-1360).
`treeResp` is the trees-API response: `none` for a non-200 status,
otherwise the truncation flag and the entry list.  `fileOk` tells which
raw-content downloads return 200.  `prior` is the target directory's
contents before the call (`mkdir(exist_ok=True)` keeps them). -/
def install_from_monorepo_api (root : List String)
    (treeResp : Option (Bool × List TreeEntry)) (subpath : String)
    (fileOk : String → Bool) (prior : Option (List String)) :
    ApiOutcome × ApiState :=
  match treeResp with
  | none => (ApiOutcome.httpTreeFail, ⟨prior, []⟩)
  | some (truncated, tree) =>
    if truncated then (ApiOutcome.truncatedFail, ⟨prior, []⟩)
    else
      let entries := matchedEntries tree subpath
      if entries.isEmpty then (ApiOutcome.noFiles, ⟨prior, []⟩)
      else if entries.length > max_files then (ApiOutcome.tooManyFiles, ⟨prior, []⟩)
      else
        apiWriteLoop root (subpathKey subpath) fileOk entries ⟨some (prior.getD []), []⟩

/-- Outcome classification of `_install_from_monorepo_zip`. -/
inductive ZipOutcome
  | success
  | downloadFail
  | emptyZip
  | noMembers
  | securityError (m : String)
deriving DecidableEq

/-- First archive member whose resolved extraction path escapes the
scratch extraction directory, if any (the per-member guard of lines
1399-1409 and 1473-1481). -/
def zipSlipCheck (tempRoot : List String) : List String → Option String
  | [] => none
  | m :: ms =>
    if destInside tempRoot m = false then some m
    else zipSlipCheck tempRoot ms

/-- Root directory of a GitHub archive: first segment of the first
member (`zip_contents[0].split('/')[0]`). -/
def zipRootDir (members : List String) : String :=
  (strSplitSlash (members.headD "")).headD ""

/-- The member filter key of `_install_from_monorepo_zip` line 1387:
`f"{root_dir}/{plugin_subpath}/"`. -/
def zipKey (members : List String) (subpath : String) : String :=
  zipRootDir members ++ "/" ++ subpath ++ "/"

/-- Archive members under the plugin sub-path (line 1390). -/
def zipPluginMembers (members : List String) (subpath : String) : List String :=
  members.filter (fun m => strStartsWith m (zipKey members subpath))

/-- Final contents of the plugin directory after the matched subtree is
moved into place (lines 1411-1423): the matched members with the key
stripped (directory entries, which end in "/", contribute their files). -/
def zipExtractedFiles (members : List String) (subpath : String) : List String :=
  ((zipPluginMembers members subpath).map
    (fun m => strDrop m (strLen (zipKey members subpath)))).filter (fun r => decide (r ≠ ""))

def install_from_monorepo_zip (tempRoot : List String)
    (zipDownload : Option (List String)) (subpath : String)
    (prior : Option (List String)) : ZipOutcome × Option (List String) :=
  match zipDownload with
  | none => (ZipOutcome.downloadFail, prior)
  | some members =>
    match members with
    | [] => (ZipOutcome.emptyZip, prior)
    | _ :: _ =>
      if (zipPluginMembers members subpath).isEmpty then (ZipOutcome.noMembers, prior)
      else
        match zipSlipCheck tempRoot (zipPluginMembers members subpath) with
        | some m => (ZipOutcome.securityError m, prior)
        | none => (ZipOutcome.success, some (zipExtractedFiles members subpath))

/-- Outcome classification of `_install_via_download`. -/
inductive DlOutcome
  | success
  | downloadFail
  | emptyZip
  | securityError (m : String)
deriving DecidableEq

/-- Embedding of `_install_via_download` (lines 1436-1510): the zip-slip
guard runs over every member before any extraction; on success the
archive root directory is stripped and its contents moved to the target. -/
def install_via_download (tempRoot : List String)
    (zipDownload : Option (List String)) (prior : Option (List String)) :
    DlOutcome × Option (List String) :=
  match zipDownload with
  | none => (DlOutcome.downloadFail, prior)
  | some members =>
    match members with
    | [] => (DlOutcome.emptyZip, prior)
    | m₀ :: _ =>
      match zipSlipCheck tempRoot members with
      | some m => (DlOutcome.securityError m, prior)
      | none =>
        let rootDir := (strSplitSlash m₀).headD ""
        let key := rootDir ++ "/"
        let under := members.filter (fun m => strStartsWith m key)
        (DlOutcome.success,
          some (if under.isEmpty then members
            else (under.map (fun m => strDrop m (strLen key))).filter
              (fun r => decide (r ≠ ""))))

/-- Embedding of `_install_from_monorepo` (lines 1189-1217): try the
API-based strategy; on any failure remove whatever it left at the target
and fall back to the full-ZIP strategy.  Returns overall success, the
final target contents and the per-file raw downloads performed by the
API strategy. -/
def install_from_monorepo (root tempRoot : List String) (parsedOk : Bool)
    (treeResp : Option (Bool × List TreeEntry)) (zipDownload : Option (List String))
    (subpath : String) (fileOk : String → Bool) (prior : Option (List String)) :
    Bool × Option (List String) × List String :=
  if parsedOk then
    let res := install_from_monorepo_api root treeResp subpath fileOk prior
    if res.1 = ApiOutcome.success then (true, res.2.targetFiles, res.2.downloads)
    else
      let zres := install_from_monorepo_zip tempRoot zipDownload subpath none
      (decide (zres.1 = ZipOutcome.success), zres.2, res.2.downloads)
  else
    let zres := install_from_monorepo_zip tempRoot zipDownload subpath prior
    (decide (zres.1 = ZipOutcome.success), zres.2, [])

/-! ## C2: path-traversal safety -/

theorem apiWriteLoop_security (root : List String) (key : String)
    (fileOk : String → Bool) (hfile : ∀ p, fileOk p = true) :
    ∀ es st, (∃ e ∈ es, destInside root (strDrop e.path (strLen key)) = false) →
      ∃ p st', apiWriteLoop root key fileOk es st = (ApiOutcome.securityError p, st') ∧
        st'.targetFiles = none := by
  intro es
  induction es with
  | nil => intro st h; simp at h
  | cons e es ih =>
    intro st h
    by_cases he : destInside root (strDrop e.path (strLen key)) = false
    · exact ⟨e.path, { st with targetFiles := none }, by simp [apiWriteLoop, he], rfl⟩
    · have hrest : ∃ e' ∈ es, destInside root (strDrop e'.path (strLen key)) = false := by
        rcases h with ⟨e', he', hesc⟩
        rcases List.mem_cons.mp he' with rfl | hmem
        · exact absurd hesc he
        · exact ⟨e', hmem, hesc⟩
      rw [show apiWriteLoop root key fileOk (e :: es) st
          = apiWriteLoop root key fileOk es
            ⟨some ((st.targetFiles.getD []) ++ [strDrop e.path (strLen key)]),
              st.downloads ++ [e.path]⟩ from by
        simp [apiWriteLoop, he, hfile e.path]]
      exact ih _ hrest

theorem zipSlipCheck_some (tempRoot : List String) :
    ∀ l, (∃ m ∈ l, destInside tempRoot m = false) →
      ∃ m', zipSlipCheck tempRoot l = some m' := by
  intro l
  induction l with
  | nil => intro h; simp at h
  | cons m ms ih =>
    intro h
    by_cases hm : destInside tempRoot m = false
    · exact ⟨m, by simp [zipSlipCheck, hm]⟩
    · have hrest : ∃ m' ∈ ms, destInside tempRoot m' = false := by
        rcases h with ⟨m', hm', hesc⟩
        rcases List.mem_cons.mp hm' with rfl | hmem
        · exact absurd hesc hm
        · exact ⟨m', hmem, hesc⟩
      obtain ⟨m', hm'⟩ := ih hrest
      exact ⟨m', by simp [zipSlipCheck, hm, hm']⟩

theorem zipSlipCheck_none (tempRoot : List String) :
    ∀ l, (∀ m ∈ l, destInside tempRoot m = true) → zipSlipCheck tempRoot l = none := by
  intro l
  induction l with
  | nil => intro _; rfl
  | cons m ms ih =>
    intro h
    have hm : destInside tempRoot m = true := h m (List.mem_cons_self m ms)
    have : ¬ destInside tempRoot m = false := by simp [hm]
    simp only [zipSlipCheck, if_neg this]
    exact ih (fun x hx => h x (List.mem_cons_of_mem m hx))

/-- C2: every tree entry (partial-tree strategy) or zip member (archive
strategies) whose relative path resolves outside the target/extraction
directory makes the install abort with a security error, leaving no
partially written files at the target path (the partial-tree strategy
removes the whole target directory; the archive strategies never touch
the target, whose prior state is returned unchanged). -/
theorem path_traversal_aborts_clean :
    (∀ root tree subpath fileOk prior,
      (∀ p, fileOk p = true) →
      (matchedEntries tree subpath).length ≤ max_files →
      (∃ e ∈ matchedEntries tree subpath,
        destInside root (strDrop e.path (strLen (subpathKey subpath))) = false) →
      ∃ p st',
        install_from_monorepo_api root (some (false, tree)) subpath fileOk prior
          = (ApiOutcome.securityError p, st') ∧ st'.targetFiles = none) ∧
    (∀ tempRoot members subpath prior,
      (∃ m ∈ zipPluginMembers members subpath, destInside tempRoot m = false) →
      ∃ m', install_from_monorepo_zip tempRoot (some members) subpath prior
          = (ZipOutcome.securityError m', prior)) ∧
    (∀ tempRoot members prior, members ≠ [] →
      (∃ m ∈ members, destInside tempRoot m = false) →
      ∃ m', install_via_download tempRoot (some members) prior
          = (DlOutcome.securityError m', prior)) := by
  refine ⟨?_, ?_, ?_⟩
  · intro root tree subpath fileOk prior hfile hcount hesc
    have hne : ¬ (matchedEntries tree subpath).isEmpty := by
      rcases hesc with ⟨e, he, _⟩
      simp [List.isEmpty_iff]
      intro hnil
      rw [hnil] at he
      simp at he
    have hcount' : ¬ (matchedEntries tree subpath).length > max_files := by omega
    obtain ⟨p, st', hloop, hnone⟩ :=
      apiWriteLoop_security root (subpathKey subpath) fileOk hfile
        (matchedEntries tree subpath) ⟨some (prior.getD []), []⟩ hesc
    refine ⟨p, st', ?_, hnone⟩
    simp only [install_from_monorepo_api, if_neg hne, if_neg hcount']
    simpa using hloop
  · intro tempRoot members subpath prior hesc
    have hmem : zipPluginMembers members subpath ≠ [] := by
      rcases hesc with ⟨m, hm, _⟩
      intro hnil
      rw [hnil] at hm
      simp at hm
    obtain ⟨m', hm'⟩ := zipSlipCheck_some tempRoot _ hesc
    have hne : ¬ (zipPluginMembers members subpath).isEmpty := by
      simpa [List.isEmpty_iff] using hmem
    cases members with
    | nil => simp [zipPluginMembers] at hmem
    | cons m₀ ms =>
      refine ⟨m', ?_⟩
      simp only [install_from_monorepo_zip, if_neg hne, hm']
  · intro tempRoot members prior hne hesc
    obtain ⟨m', hm'⟩ := zipSlipCheck_some tempRoot _ hesc
    cases members with
    | nil => exact absurd rfl hne
    | cons m₀ ms =>
      exact ⟨m', by simp only [install_via_download, hm']⟩

/-- Witness for the traversal claim: a single escaping entry/member
triggers the security abort in each of the three strategies. -/
theorem path_traversal_aborts_clean_witness :
    (∃ p st',
      install_from_monorepo_api ["plugins", "foo"]
          (some (false, [⟨"plugins/hello/../../evil", "blob"⟩])) "plugins/hello"
          (fun _ => true) none
        = (ApiOutcome.securityError p, st') ∧ st'.targetFiles = none) ∧
    (∃ m', install_from_monorepo_zip ["tmp", "x"]
          (some ["repo-main/plugins/hello/../../../../pwn"]) "plugins/hello" none
        = (ZipOutcome.securityError m', none)) ∧
    (∃ m', install_via_download ["tmp", "x"]
          (some ["repo-main/../../pwn"]) none
        = (DlOutcome.securityError m', none)) :=
  ⟨path_traversal_aborts_clean.1 ["plugins", "foo"]
      [⟨"plugins/hello/../../evil", "blob"⟩] "plugins/hello" (fun _ => true) none
      (fun _ => rfl) (by decide) (by decide),
    path_traversal_aborts_clean.2.1 ["tmp", "x"]
      ["repo-main/plugins/hello/../../../../pwn"] "plugins/hello" none (by decide),
    path_traversal_aborts_clean.2.2 ["tmp", "x"] ["repo-main/../../pwn"] none
      (by decide) (by decide)⟩

/-! ## C8: monorepo file-count ceiling -/

/-- C8: when the tree listing yields more matching files than the
500-file ceiling, the partial-tree strategy aborts having downloaded no
files and leaving the target untouched, and `_install_from_monorepo`
falls through to the archive strategy, which still produces the correct
final directory when the archive contains the sub-path (and no member
escapes the scratch directory). -/
theorem monorepo_size_guard (root tempRoot : List String) (tree : List TreeEntry)
    (members : List String) (subpath : String) (fileOk : String → Bool)
    (prior : Option (List String))
    (hover : (matchedEntries tree subpath).length > max_files)
    (hmem : members ≠ [])
    (hplug : (zipPluginMembers members subpath).isEmpty = false)
    (hsafe : ∀ m ∈ zipPluginMembers members subpath, destInside tempRoot m = true) :
    install_from_monorepo_api root (some (false, tree)) subpath fileOk prior
        = (ApiOutcome.tooManyFiles, ⟨prior, []⟩) ∧
    install_from_monorepo root tempRoot true (some (false, tree)) (some members)
        subpath fileOk prior
      = (true, some (zipExtractedFiles members subpath), []) := by
  have hne : (matchedEntries tree subpath).isEmpty = false := by
    rcases hl : matchedEntries tree subpath with _ | ⟨e, es⟩
    · rw [hl] at hover; simp [max_files] at hover
    · simp
  have happi : install_from_monorepo_api root (some (false, tree)) subpath fileOk prior
      = (ApiOutcome.tooManyFiles, ⟨prior, []⟩) := by
    simp [install_from_monorepo_api, hne, hover]
  refine ⟨happi, ?_⟩
  have hzip : install_from_monorepo_zip tempRoot (some members) subpath none
      = (ZipOutcome.success, some (zipExtractedFiles members subpath)) := by
    rcases members with _ | ⟨m₀, ms⟩
    · exact absurd rfl hmem
    · simp only [install_from_monorepo_zip, hplug, Bool.false_eq_true, if_false,
        zipSlipCheck_none tempRoot _ hsafe]
  simp [install_from_monorepo, happi, hzip]

theorem filter_replicate_true {α} (p : α → Bool) (a : α) (h : p a = true) :
    ∀ n, (List.replicate n a).filter p = List.replicate n a := by
  intro n
  induction n with
  | zero => rfl
  | succ n ih => simp [List.replicate_succ, List.filter_cons, h, ih]

/-- Witness for the size-guard claim: 501 identical matching tree
entries trip the ceiling, and the archive containing the sub-path
produces the plugin directory. -/
theorem monorepo_size_guard_witness :
    install_from_monorepo_api ["plugins", "hello"]
        (some (false, List.replicate 501 ⟨"p/a", "blob"⟩)) "p" (fun _ => true) none
      = (ApiOutcome.tooManyFiles, ⟨none, []⟩) ∧
    install_from_monorepo ["plugins", "hello"] ["tmp"] true
        (some (false, List.replicate 501 ⟨"p/a", "blob"⟩))
        (some ["repo-main/", "repo-main/p/manifest.json"]) "p" (fun _ => true) none
      = (true, some ["manifest.json"], []) := by
  have hmatch : matchedEntries (List.replicate 501 ⟨"p/a", "blob"⟩) "p"
      = List.replicate 501 ⟨"p/a", "blob"⟩ :=
    filter_replicate_true _ _ (by decide) 501
  have hover : (matchedEntries (List.replicate 501 ⟨"p/a", "blob"⟩) "p").length
      > max_files := by
    rw [hmatch, List.length_replicate]
    decide
  have h := monorepo_size_guard ["plugins", "hello"] ["tmp"]
    (List.replicate 501 ⟨"p/a", "blob"⟩) ["repo-main/", "repo-main/p/manifest.json"]
    "p" (fun _ => true) none hover (by decide) (by decide) (by decide)
  have hext : zipExtractedFiles ["repo-main/", "repo-main/p/manifest.json"] "p"
      = ["manifest.json"] := by decide
  rw [hext] at h
  exact h

/-! ## C9: strategy order for monorepo installs -/

/-- Observable acquisition events of a monorepo install: one
partial-tree (API) attempt or one archive (ZIP) download, each tagged
with the branch candidate it was made for. -/
inductive AcqEvent
  | treeAttempt (branch : String)
  | zipDownloadEvent (branch : String)
deriving DecidableEq

/-- Attempt trace of the `install_plugin` monorepo candidate loop (lines
842-846) combined with `_install_from_monorepo` (lines 1189-1217): for
each branch candidate in order, the partial-tree strategy is attempted
and, if it fails, the ZIP archive for that same branch is downloaded,
before the next candidate is considered. -/
def monorepoAttemptTrace (apiOk zipOk : String → Bool) :
    List String → List AcqEvent × Option String
  | [] => ([], none)
  | b :: bs =>
    if apiOk b then ([AcqEvent.treeAttempt b], some b)
    else if zipOk b then
      ([AcqEvent.treeAttempt b, AcqEvent.zipDownloadEvent b], some b)
    else
      let rest := monorepoAttemptTrace apiOk zipOk bs
      (AcqEvent.treeAttempt b :: AcqEvent.zipDownloadEvent b :: rest.1, rest.2)

def isTreeEvent : AcqEvent → Bool
  | AcqEvent.treeAttempt _ => true
  | AcqEvent.zipDownloadEvent _ => false

/-- The ordering property asserted by the claim: once any archive
download has occurred, no further partial-tree attempt happens (all
partial-tree attempts precede all archive downloads). -/
def noTreeAfterZip : List AcqEvent → Bool
  | [] => true
  | AcqEvent.zipDownloadEvent _ :: es =>
    es.all (fun e => !isTreeEvent e) && noTreeAfterZip es
  | AcqEvent.treeAttempt _ :: es => noTreeAfterZip es

/-- Counterexample to C9 as stated: with candidates ["main", "master"],
every partial-tree attempt failing and the archive succeeding only for
"master", the archive download for "main" happens before the
partial-tree attempt for "master" — archive downloads are not deferred
until all partial-tree attempts are exhausted. -/
theorem monorepo_strategy_interleaving_counterexample :
    (monorepoAttemptTrace (fun _ => false) (fun b => decide (b = "master"))
        (installCandidates "" "" "" "")).1
      = [AcqEvent.treeAttempt "main", AcqEvent.zipDownloadEvent "main",
         AcqEvent.treeAttempt "master", AcqEvent.zipDownloadEvent "master"] ∧
    (monorepoAttemptTrace (fun _ => false) (fun b => decide (b = "master"))
        (installCandidates "" "" "" "")).2 = some "master" ∧
    noTreeAfterZip (monorepoAttemptTrace (fun _ => false)
        (fun b => decide (b = "master")) (installCandidates "" "" "" "")).1
      = false := by
  refine ⟨?_, ?_, ?_⟩ <;> decide

/-- C9 (amended): per branch candidate, the archive download for a
branch happens only if the partial-tree strategy for that same branch
was attempted immediately before and failed. -/
theorem monorepo_zip_follows_tree_per_branch :
    ∀ (apiOk zipOk : String → Bool) cands b,
      AcqEvent.zipDownloadEvent b ∈ (monorepoAttemptTrace apiOk zipOk cands).1 →
      apiOk b = false ∧
      ∃ l₁ l₂, (monorepoAttemptTrace apiOk zipOk cands).1
          = l₁ ++ AcqEvent.treeAttempt b :: AcqEvent.zipDownloadEvent b :: l₂ := by
  intro apiOk zipOk cands
  induction cands with
  | nil => intro b h; simp [monorepoAttemptTrace] at h
  | cons c cs ih =>
    intro b h
    by_cases hc : apiOk c
    · simp [monorepoAttemptTrace, hc] at h
    · by_cases hz : zipOk c
      · simp [monorepoAttemptTrace, hc, hz] at h
        subst h
        exact ⟨Bool.not_eq_true _ ▸ hc, [], [],
          by simp [monorepoAttemptTrace, hc, hz]⟩
      · rw [show (monorepoAttemptTrace apiOk zipOk (c :: cs)).1
            = AcqEvent.treeAttempt c :: AcqEvent.zipDownloadEvent c
                :: (monorepoAttemptTrace apiOk zipOk cs).1 from by
          simp [monorepoAttemptTrace, hc, hz]] at h ⊢
        rcases List.mem_cons.mp h with hbc | h'
        · simp at hbc
        · rcases List.mem_cons.mp h' with hbc | hmem
          · obtain rfl : b = c := by
              simpa using hbc
            exact ⟨Bool.not_eq_true _ ▸ hc, [], (monorepoAttemptTrace apiOk zipOk cs).1,
              rfl⟩
          · obtain ⟨hb, l₁, l₂, heq⟩ := ih b hmem
            exact ⟨hb, AcqEvent.treeAttempt c :: AcqEvent.zipDownloadEvent c :: l₁, l₂,
              by rw [heq]; simp⟩

/-- Witness for the amended per-branch ordering: with a single candidate
whose partial-tree attempt fails, the archive download for that branch is
preceded by its partial-tree attempt. -/
theorem monorepo_zip_follows_tree_per_branch_witness :
    (fun _ : String => false) "main" = false ∧
    ∃ l₁ l₂, (monorepoAttemptTrace (fun _ => false) (fun _ => false) ["main"]).1
        = l₁ ++ AcqEvent.treeAttempt "main" :: AcqEvent.zipDownloadEvent "main" :: l₂ :=
  monorepo_zip_follows_tree_per_branch (fun _ => false) (fun _ => false) ["main"]
    "main" (by decide)

/-! ## Install coordinator (`install_plugin`, `install_from_url`)

The filesystem is the map from directory names under the plugins root to
directory contents, modelled as an association list.  Directory contents
record the file names and the parsed manifest; `manifestFile = none`
means no `manifest.json` is present, `some none` means the file exists
but cannot be parsed. -/

/-- Manifest fields read by the install code: the value of `id`
(`none` = key absent), presence of the other required keys, and the
`entry_point` value. -/
structure ManifestM where
  id : Option String
  hasName : Bool
  hasClassName : Bool
  hasDisplayModes : Bool
  entry_point : Option String
deriving DecidableEq

/-- Contents of one plugin directory. -/
structure DirC where
  files : List String
  manifestFile : Option (Option ManifestM)
deriving DecidableEq

/-- The plugins directory: directory name to contents. -/
def Fs : Type := List (String × DirC)

def fsGet : Fs → String → Option DirC
  | [], _ => none
  | (k, d) :: rest, q => if q = k then some d else fsGet rest q

/-- Directory removal (idealized `_safe_remove_directory`: in this model
of the filesystem removal always succeeds, as it does in the absence of
permission failures, which are outside the shallow embedding). -/
def fsRemove (fs : Fs) (k : String) : Fs :=
  fs.filter (fun p => decide (p.1 ≠ k))

/-- Directory creation/replacement (`shutil.move` into the plugins root). -/
def fsSet (fs : Fs) (k : String) (d : DirC) : Fs :=
  (k, d) :: fsRemove fs k

theorem fsGet_fsRemove (fs : Fs) (k q : String) :
    fsGet (fsRemove fs k) q = if q = k then none else fsGet fs q := by
  induction fs with
  | nil => simp [fsRemove, fsGet]
  | cons p rest ih =>
    obtain ⟨k', d⟩ := p
    by_cases hk : k' = k
    · subst hk
      have hstep : fsRemove ((k', d) :: rest) k' = fsRemove rest k' := by
        simp [fsRemove, List.filter_cons]
      rw [hstep, ih]
      by_cases hq : q = k'
      · simp [hq]
      · simp [fsGet, hq]
    · have hstep : fsRemove ((k', d) :: rest) k = (k', d) :: fsRemove rest k := by
        simp [fsRemove, List.filter_cons, hk]
      rw [hstep]
      by_cases hq : q = k'
      · subst hq
        simp [fsGet, hk]
      · simp [fsGet, hq, ih]

theorem fsGet_fsSet (fs : Fs) (k q : String) (d : DirC) :
    fsGet (fsSet fs k d) q = if q = k then some d else fsGet fs q := by
  by_cases hq : q = k
  · subst hq; simp [fsSet, fsGet]
  · simp [fsSet, fsGet, hq, fsGet_fsRemove]

/-- Python truthiness of an optional string (`None` and `""` are falsey). -/
def pyTruthy : Option String → Bool
  | none => false
  | some s => decide (s ≠ "")

/-- Registry fields read by `install_plugin` before acquisition. -/
structure RegInfo where
  repo : Option String
  subpath : Option String
deriving DecidableEq

/-- Auto-repair of `class_name` (lines 906-918): when `class_name` is
missing and the entry-point file exists, `_detect_class_name` may supply
it; `detectOk` abstracts whether a class declaration is found. -/
def repairManifest (m : ManifestM) (files : List String) (detectOk : Bool) : ManifestM :=
  if m.hasClassName = false ∧ (m.entry_point.getD "manager.py") ∈ files ∧
      detectOk = true then
    { m with hasClassName := true }
  else m

/-- Required-field check of lines 901-902 / 1039-1040 for the fields
other than `id` (whose handling differs between the two installers). -/
def requiredOk (m : ManifestM) : Bool :=
  m.hasName && m.hasClassName && m.hasDisplayModes

/-- Embedding of `install_plugin` (lines 792-950).  The acquisition phase
(git clone / monorepo / archive download over all branch candidates) is
abstracted by `acq`: `some d` means some strategy succeeded and left the
directory contents `d` at the requested id's path, `none` means every
strategy failed (each strategy removes its own partial output). -/
def install_plugin_model (pid : String) (reg : Option RegInfo) (acq : Option DirC)
    (detectOk : Bool) (fs : Fs) : Bool × Fs :=
  match reg with
  | none => (false, fs)
  | some info =>
    if pyTruthy info.repo = false then (false, fs)
    else
      let fs₁ := fsRemove fs pid
      match acq with
      | none => (false, fs₁)
      | some d =>
        let fs₂ := fsSet fs₁ pid d
        match d.manifestFile with
        | none => (false, fsRemove fs₂ pid)
        | some none => (false, fsRemove fs₂ pid)
        | some (some m) =>
          if pyTruthy m.id = false then (false, fsRemove fs₂ pid)
          else
            let mid := m.id.getD ""
            let fs₃ := if mid ≠ pid then
                fsSet (fsRemove (fsRemove fs₂ pid) mid) mid d
              else fs₂
            let finalId := if mid ≠ pid then mid else pid
            let m₁ := repairManifest m d.files detectOk
            if requiredOk m₁ = false then
              (false, fsRemove fs₃ finalId)
            else
              let m₂ := if m₁.entry_point = none then
                  { m₁ with entry_point := some "manager.py" }
                else m₁
              (true, fsSet fs₃ finalId { d with manifestFile := some (some m₂) })

/-- Result record of `install_from_url`. -/
structure UrlResult where
  success : Bool
  plugin_id : Option String
deriving DecidableEq

/-- The id used for the final directory in `install_from_url` (line
1031): `plugin_id = plugin_id or manifest.get('id')` — a truthy
caller-supplied id takes priority over the manifest's id. -/
def urlEffectiveId (callerId : Option String) (manifestId : Option String) :
    Option String :=
  match callerId with
  | some s => if s ≠ "" then some s else manifestId
  | none => manifestId

/-- Embedding of `install_from_url` (lines 952-1110).  `callerId` is the
optional caller-supplied plugin id; `fetched` is the temporary
directory's contents after acquisition (`none` = clone, download and
monorepo extraction all failed; the temp directory is cleaned up in the
`finally` block either way). -/
def install_from_url_model (callerId : Option String) (fetched : Option DirC)
    (fs : Fs) : UrlResult × Fs :=
  match fetched with
  | none => ({ success := false, plugin_id := none }, fs)
  | some d =>
    match d.manifestFile with
    | none => ({ success := false, plugin_id := none }, fs)
    | some none => ({ success := false, plugin_id := none }, fs)
    | some (some m) =>
      let pid := urlEffectiveId callerId m.id
      if pyTruthy pid = false then ({ success := false, plugin_id := none }, fs)
      else if m.id = none ∨ requiredOk m = false then
        ({ success := false, plugin_id := none }, fs)
      else
        let m₂ := if m.entry_point = none then
            { m with entry_point := some "manager.py" }
          else m
        ({ success := true, plugin_id := some (pid.getD "") },
          fsSet fs (pid.getD "") { d with manifestFile := some (some m₂) })

/-- A well-formed manifest whose id is "bar". -/
def manifestBar : ManifestM :=
  { id := some "bar", hasName := true, hasClassName := true,
    hasDisplayModes := true, entry_point := some "manager.py" }

/-- A fetched plugin directory carrying `manifestBar`. -/
def dirBar : DirC :=
  { files := ["manager.py"], manifestFile := some (some manifestBar) }

/-- C1, evaluated at the failing input (`install_plugin` renames the
directory to the manifest id, but `install_from_url` computes
`plugin_id or manifest.get('id')`, so a caller-supplied id wins): with
caller id "foo" and a fetched manifest whose id is "bar", the install
succeeds, the final directory is named "foo" and still contains the
manifest with id "bar", and no directory named "bar" exists — the final
directory name differs from the manifest's id, contradicting the claim
and the code's own comments at lines 1065-1066 and 1079. -/
theorem install_from_url_dirname_mismatch :
    (install_from_url_model (some "foo") (some dirBar) ([] : Fs)).1
      = { success := true, plugin_id := some "foo" } ∧
    fsGet (install_from_url_model (some "foo") (some dirBar) ([] : Fs)).2 "foo"
      = some dirBar ∧
    fsGet (install_from_url_model (some "foo") (some dirBar) ([] : Fs)).2 "bar"
      = none ∧
    manifestBar.id ≠ some "foo" := by
  refine ⟨?_, ?_, ?_, ?_⟩ <;> decide

/-- C3: every failing execution of `install_plugin` leaves each directory
of the plugins root either absent or exactly in its prior state (never a
partially written mixture), and every failing execution of
`install_from_url` leaves the plugins root entirely unchanged (it works
in a temporary directory that is cleaned up on every exit). -/
theorem install_failure_rollback :
    (∀ pid reg acq detectOk fs q,
      (install_plugin_model pid reg acq detectOk fs).1 = false →
      fsGet (install_plugin_model pid reg acq detectOk fs).2 q = none ∨
      fsGet (install_plugin_model pid reg acq detectOk fs).2 q = fsGet fs q) ∧
    (∀ callerId fetched fs,
      (install_from_url_model callerId fetched fs).1.success = false →
      (install_from_url_model callerId fetched fs).2 = fs) := by
  constructor
  · intro pid reg acq detectOk fs q hfail
    rcases reg with _ | info
    · exact Or.inr rfl
    by_cases hrepo : pyTruthy info.repo = false
    · right
      simp [install_plugin_model, hrepo]
    rcases acq with _ | d
    · by_cases hq : q = pid
      · exact Or.inl (by simp [install_plugin_model, hrepo, fsGet_fsRemove, hq])
      · exact Or.inr (by simp [install_plugin_model, hrepo, fsGet_fsRemove, hq])
    rcases hman : d.manifestFile with _ | m?
    · by_cases hq : q = pid
      · exact Or.inl (by
          simp [install_plugin_model, hrepo, hman, fsGet_fsRemove, fsGet_fsSet, hq])
      · exact Or.inr (by
          simp [install_plugin_model, hrepo, hman, fsGet_fsRemove, fsGet_fsSet, hq])
    rcases m? with _ | m
    · by_cases hq : q = pid
      · exact Or.inl (by
          simp [install_plugin_model, hrepo, hman, fsGet_fsRemove, fsGet_fsSet, hq])
      · exact Or.inr (by
          simp [install_plugin_model, hrepo, hman, fsGet_fsRemove, fsGet_fsSet, hq])
    by_cases hid : pyTruthy m.id = false
    · by_cases hq : q = pid
      · exact Or.inl (by
          simp [install_plugin_model, hrepo, hman, hid, fsGet_fsRemove, fsGet_fsSet, hq])
      · exact Or.inr (by
          simp [install_plugin_model, hrepo, hman, hid, fsGet_fsRemove, fsGet_fsSet, hq])
    by_cases hreq : requiredOk (repairManifest m d.files detectOk) = false
    · by_cases hmid : m.id.getD "" ≠ pid
      · by_cases hq1 : q = m.id.getD ""
        · exact Or.inl (by
            simp [install_plugin_model, hrepo, hman, hid, hmid, hreq,
              fsGet_fsRemove, fsGet_fsSet, hq1])
        · by_cases hq2 : q = pid
          · exact Or.inl (by
              simp [install_plugin_model, hrepo, hman, hid, hmid, hreq,
                fsGet_fsRemove, fsGet_fsSet, hq1, hq2])
          · exact Or.inr (by
              simp [install_plugin_model, hrepo, hman, hid, hmid, hreq,
                fsGet_fsRemove, fsGet_fsSet, hq1, hq2])
      · by_cases hq : q = pid
        · exact Or.inl (by
            simp [install_plugin_model, hrepo, hman, hid, hmid, hreq,
              fsGet_fsRemove, fsGet_fsSet, hq])
        · exact Or.inr (by
            simp [install_plugin_model, hrepo, hman, hid, hmid, hreq,
              fsGet_fsRemove, fsGet_fsSet, hq])
    · exfalso
      by_cases hmid : m.id.getD "" ≠ pid
      all_goals
        simp [install_plugin_model, hrepo, hman, hid, hmid, hreq] at hfail
  · intro callerId fetched fs hfail
    rcases fetched with _ | d
    · rfl
    rcases hman : d.manifestFile with _ | m?
    · simp [install_from_url_model, hman]
    rcases m? with _ | m
    · simp [install_from_url_model, hman]
    by_cases hpid : pyTruthy (urlEffectiveId callerId m.id) = false
    · simp [install_from_url_model, hman, hpid]
    by_cases hreq : m.id = none ∨ requiredOk m = false
    · simp [install_from_url_model, hman, hpid, hreq]
    · exfalso
      simp [install_from_url_model, hman, hpid, hreq] at hfail

/-- Witness for the rollback claim: a registry miss fails and leaves the
prior directory of the requested id unchanged, and a failed URL install
leaves the filesystem unchanged. -/
theorem install_failure_rollback_witness :
    (fsGet (install_plugin_model "x" none none false
        [("x", { files := [], manifestFile := none })]).2 "x" = none ∨
      fsGet (install_plugin_model "x" none none false
        [("x", { files := [], manifestFile := none })]).2 "x"
        = fsGet [("x", { files := [], manifestFile := none })] "x") ∧
    (install_from_url_model none none ([] : Fs)).2 = [] :=
  ⟨install_failure_rollback.1 "x" none none false
      [("x", { files := [], manifestFile := none })] "x" (by decide),
    install_failure_rollback.2 none none ([] : Fs) (by decide)⟩

/-! ## Update coordinator (`update_plugin`, lines 1750-2126) -/

/-- Local git state returned by `_get_local_git_info`. -/
structure GitInfo where
  branch : String
  sha : String
  remote_url : Option String
deriving DecidableEq

/-- Registry/GitHub fields read by the git-based update path. -/
structure URegInfo where
  repo : Option String
  branch : Option String
  default_branch : Option String
  last_commit_sha : Option String
deriving DecidableEq

/-- Destructive filesystem operations performed by `update_plugin`
(operations that remove or modify files of the installed plugin). -/
inductive UpdOp
  | removeDir (id : String)
  | reinstall (id : String)
  | markerDelete
  | stash
  | pull
deriving DecidableEq

/-- Python `str.rstrip('/')`. -/
def rstripSlash (s : String) : String :=
  String.mk ((s.data.reverse.dropWhile (fun c => c = '/')).reverse)

/-- Strip a trailing ".git". -/
def stripSuffixGit (s : String) : String :=
  if s.data.reverse.take 4 = ['t', 'i', 'g', '.'] then
    String.mk (s.data.take (s.data.length - 4))
  else s

/-- Python `str.lower()` (ASCII, as applies to URLs). -/
def strLower (s : String) : String := String.mk (s.data.map Char.toLower)

/-- Embedding of `_normalize_repo_url` (lines 1237-1243). -/
def normalize_repo_url (url : String) : String :=
  strLower (stripSuffixGit (rstripSlash url))

/-- The source-migration test of lines 1797-1799: both URLs truthy and
normalized forms differ. -/
def updMigration (g : GitInfo) (r : URegInfo) : Bool :=
  pyTruthy g.remote_url && pyTruthy r.repo &&
    decide (normalize_repo_url (g.remote_url.getD "")
      ≠ normalize_repo_url (r.repo.getD ""))

/-- The already-up-to-date test of line 1810: both shas truthy and the
remote sha starts with the local sha. -/
def updUpToDate (g : GitInfo) (r : URegInfo) : Bool :=
  pyTruthy r.last_commit_sha && decide (g.sha ≠ "") &&
    strStartsWith (r.last_commit_sha.getD "") g.sha

/-- Embedding of `update_plugin` (lines 1750-2126) up to the level of
its destructive filesystem operations.  `installed` is whether
`_find_plugin_path` found the plugin; `bundled` whether the metadata
marker has `install_type == "bundled"`; `gitInfo` the local checkout
state (`none` = not a git repository); `reg` the refreshed registry
entry.  `markerPresent`/`hasChanges`/`pullOk` drive the pull path;
`reinstallResult` abstracts the `install_plugin` call after a source
migration; `archivePath` abstracts the whole non-git update path of
lines 2038-2120 (not reached by any git-checkout claim). -/
def update_plugin_model (pid : String) (installed bundled : Bool)
    (gitInfo : Option GitInfo) (reg : Option URegInfo)
    (markerPresent hasChanges pullOk reinstallResult : Bool)
    (archivePath : Bool × List UpdOp) : Bool × List UpdOp :=
  if installed = false then (false, [])
  else if bundled then (true, [])
  else
    match gitInfo with
    | some g =>
      match reg with
      | some r =>
        if updMigration g r then
          (reinstallResult, [UpdOp.removeDir pid, UpdOp.reinstall pid])
        else if updUpToDate g r then (true, [])
        else
          ((pullOk),
            (if markerPresent then [UpdOp.markerDelete] else []) ++
            (if hasChanges then [UpdOp.stash] else []) ++ [UpdOp.pull])
      | none =>
        ((pullOk),
          (if markerPresent then [UpdOp.markerDelete] else []) ++
          (if hasChanges then [UpdOp.stash] else []) ++ [UpdOp.pull])
    | none => archivePath

/-- Counterexample to C4 as stated: a git checkout whose local sha "abc"
is a prefix of the registry's latest sha "abcdef", but whose local
remote URL differs from the registry's repository URL, is removed and
reinstalled (destructive operations), because the source-migration check
of lines 1797-1807 runs before the sha comparison of line 1810. -/
theorem update_noop_counterexample :
    strStartsWith "abcdef" "abc" = true ∧
    update_plugin_model "p" true false
        (some { branch := "main", sha := "abc",
                remote_url := some "https://github.com/a/old" })
        (some { repo := some "https://github.com/a/new", branch := some "main",
                default_branch := some "main", last_commit_sha := some "abcdef" })
        false false true true (false, [])
      = (true, [UpdOp.removeDir "p", UpdOp.reinstall "p"]) := by
  refine ⟨?_, ?_⟩ <;> decide

/-- C4 (amended): for an installed git checkout whose local remote URL
matches the registry's repository URL after normalization (or where
either URL is absent), a registry latest sha that starts with the
(non-empty) local sha makes `update_plugin` return success with no
destructive filesystem operation. -/
theorem update_prefix_match_noop (pid : String) (bundled : Bool) (g : GitInfo)
    (r : URegInfo) (markerPresent hasChanges pullOk reinstallResult : Bool)
    (archivePath : Bool × List UpdOp)
    (hsha : pyTruthy r.last_commit_sha = true)
    (hlocal : g.sha ≠ "")
    (hmatch : strStartsWith (r.last_commit_sha.getD "") g.sha = true)
    (hurl : pyTruthy g.remote_url = false ∨ pyTruthy r.repo = false ∨
      normalize_repo_url (g.remote_url.getD "") = normalize_repo_url (r.repo.getD "")) :
    update_plugin_model pid true bundled (some g) (some r)
        markerPresent hasChanges pullOk reinstallResult archivePath
      = (true, []) := by
  have hmig : updMigration g r = false := by
    unfold updMigration
    rcases hurl with h | h | h
    · simp [h]
    · simp [h]
    · simp [h]
  have hup : updUpToDate g r = true := by
    unfold updUpToDate
    simp [hsha, hlocal, hmatch]
  rcases hb : bundled with _ | _
  · simp [update_plugin_model, hmig, hup]
  · simp [update_plugin_model]

/-- Witness for the amended no-op claim: matching remote URLs and a
prefix-matching sha produce success with no destructive operation. -/
theorem update_prefix_match_noop_witness :
    update_plugin_model "p" true false
        (some { branch := "main", sha := "abc",
                remote_url := some "https://github.com/a/repo.git" })
        (some { repo := some "https://github.com/a/repo", branch := some "main",
                default_branch := some "main", last_commit_sha := some "abcdef" })
        true true false true (false, [UpdOp.pull])
      = (true, []) :=
  update_prefix_match_noop "p" false
    { branch := "main", sha := "abc", remote_url := some "https://github.com/a/repo.git" }
    { repo := some "https://github.com/a/repo", branch := some "main",
      default_branch := some "main", last_commit_sha := some "abcdef" }
    true true false true (false, [UpdOp.pull]) (by decide) (by decide) (by decide)
    (Or.inr (Or.inr (by decide)))

/-! ## Token validation (`_validate_github_token`, lines 87-166) -/

/-- Association-list lookup (Python dict read; later insertions shadow). -/
def assocGet {α : Type} : List (String × α) → String → Option α
  | [], _ => none
  | (k, v) :: rest, q => if q = k then some v else assocGet rest q

/-- Association-list update (Python dict write). -/
def assocSet {α : Type} (l : List (String × α)) (k : String) (v : α) :
    List (String × α) :=
  (k, v) :: l.filter (fun p => decide (p.1 ≠ k))

/-- Python `s[:n]`. -/
def strTake (s : String) (n : Nat) : String := String.mk (s.data.take n)

/-- The token-validation cache: token prefix to
(is_valid, inserted-at time, error message). -/
abbrev TVCache : Type := List (String × (Bool × Nat × Option String))

/-- Network outcome of the probe to `https://api.github.com/user`:
an HTTP status (with whether the body mentions a rate limit), a
timeout, a network error, or any other exception. -/
inductive TokenResp
  | status (code : Nat) (rateLimited : Bool)
  | timeout
  | netError
  | otherExc
deriving DecidableEq

/-- The probe half of `_validate_github_token` (lines 110-166): maps the
response to the (is_valid, error) pair and decides whether to cache.
The generic-error message carries the status code in Python; the model
uses a fixed string. -/
def tvProbe (key : String) (cache : TVCache) (now : Nat) (resp : TokenResp) :
    (Bool × Option String) × TVCache × Bool :=
  match resp with
  | TokenResp.status code rl =>
    if code = 200 then
      ((true, none), assocSet cache key (true, now, none), true)
    else if code = 401 then
      ((false, some "Token is invalid or expired"),
        assocSet cache key (false, now, some "Token is invalid or expired"), true)
    else if code = 403 then
      if rl then ((false, some "Rate limit exceeded"), cache, true)
      else
        ((false, some "Token lacks required permissions"),
          assocSet cache key (false, now, some "Token lacks required permissions"),
          true)
    else
      ((false, some "GitHub API error"),
        assocSet cache key (false, now, some "GitHub API error"), true)
  | TokenResp.timeout => ((false, some "GitHub API request timed out"), cache, true)
  | TokenResp.netError => ((false, some "Network error"), cache, true)
  | TokenResp.otherExc => ((false, some "Unexpected error"), cache, true)

/-- Embedding of `_validate_github_token` (lines 87-166): result is
((is_valid, error), cache after the call, whether a network probe was
made).  The cache key is the first 10 characters of the token; a cached
entry younger than 300 seconds is returned without probing. -/
def validate_github_token (token : String) (cache : TVCache) (now : Nat)
    (resp : TokenResp) : (Bool × Option String) × TVCache × Bool :=
  if token = "" then ((false, some "No token provided"), cache, false)
  else
    let key := strTake token 10
    match assocGet cache key with
    | some (v, t, e) =>
      if now - t < 300 then ((v, e), cache, false)
      else tvProbe key cache now resp
    | none => tvProbe key cache now resp

/-- C6: 200 is cached as valid; 401 cached as invalid; a rate-limited
403 is returned as invalid but never cached; any other 403 is cached as
insufficient permission; timeouts and network errors are never cached;
and a cache entry younger than the 5-minute TTL, keyed by the token's
10-character prefix, is returned without any network probe. -/
theorem token_validation_cases :
    (∀ token cache now resp v t e, token ≠ "" →
      assocGet cache (strTake token 10) = some (v, t, e) → now - t < 300 →
      validate_github_token token cache now resp = ((v, e), cache, false)) ∧
    (∀ token cache now rl, token ≠ "" →
      assocGet cache (strTake token 10) = none →
      validate_github_token token cache now (TokenResp.status 200 rl)
        = ((true, none), assocSet cache (strTake token 10) (true, now, none), true)) ∧
    (∀ token cache now rl, token ≠ "" →
      assocGet cache (strTake token 10) = none →
      validate_github_token token cache now (TokenResp.status 401 rl)
        = ((false, some "Token is invalid or expired"),
            assocSet cache (strTake token 10)
              (false, now, some "Token is invalid or expired"), true)) ∧
    (∀ token cache now, token ≠ "" →
      assocGet cache (strTake token 10) = none →
      validate_github_token token cache now (TokenResp.status 403 true)
        = ((false, some "Rate limit exceeded"), cache, true)) ∧
    (∀ token cache now, token ≠ "" →
      assocGet cache (strTake token 10) = none →
      validate_github_token token cache now (TokenResp.status 403 false)
        = ((false, some "Token lacks required permissions"),
            assocSet cache (strTake token 10)
              (false, now, some "Token lacks required permissions"), true)) ∧
    (∀ token cache now, token ≠ "" →
      assocGet cache (strTake token 10) = none →
      (validate_github_token token cache now TokenResp.timeout).2.1 = cache ∧
      (validate_github_token token cache now TokenResp.netError).2.1 = cache) := by
  refine ⟨?_, ?_, ?_, ?_, ?_, ?_⟩
  · intro token cache now resp v t e htok hget hfresh
    simp [validate_github_token, htok, hget, hfresh]
  · intro token cache now rl htok hget
    simp [validate_github_token, htok, hget, tvProbe]
  · intro token cache now rl htok hget
    simp [validate_github_token, htok, hget, tvProbe]
  · intro token cache now htok hget
    simp [validate_github_token, htok, hget, tvProbe]
  · intro token cache now htok hget
    simp [validate_github_token, htok, hget, tvProbe]
  · intro token cache now htok hget
    constructor <;> simp [validate_github_token, htok, hget, tvProbe]

/-- Witness for the token-validation claim, instantiating each case at a
concrete token, empty or singleton cache, and time 1000. -/
theorem token_validation_cases_witness :
    validate_github_token "ghp_abcdefgh" [("ghp_abcdef", (true, 800, none))] 1000
        TokenResp.netError = ((true, none), [("ghp_abcdef", (true, 800, none))], false) ∧
    validate_github_token "ghp_abcdefgh" [] 1000 (TokenResp.status 200 false)
      = ((true, none), [("ghp_abcdef", (true, 1000, none))], true) ∧
    validate_github_token "ghp_abcdefgh" [] 1000 (TokenResp.status 401 false)
      = ((false, some "Token is invalid or expired"),
          [("ghp_abcdef", (false, 1000, some "Token is invalid or expired"))], true) ∧
    validate_github_token "ghp_abcdefgh" [] 1000 (TokenResp.status 403 true)
      = ((false, some "Rate limit exceeded"), [], true) ∧
    validate_github_token "ghp_abcdefgh" [] 1000 (TokenResp.status 403 false)
      = ((false, some "Token lacks required permissions"),
          [("ghp_abcdef", (false, 1000, some "Token lacks required permissions"))],
          true) ∧
    (validate_github_token "ghp_abcdefgh" [] 1000 TokenResp.timeout).2.1 = [] ∧
    (validate_github_token "ghp_abcdefgh" [] 1000 TokenResp.netError).2.1 = [] := by
  have h1 := token_validation_cases.1 "ghp_abcdefgh"
    [("ghp_abcdef", (true, 800, none))] 1000 TokenResp.netError true 800 none
    (by decide) (by decide) (by decide)
  have h2 := token_validation_cases.2.1 "ghp_abcdefgh" [] 1000 false
    (by decide) (by decide)
  have h3 := token_validation_cases.2.2.1 "ghp_abcdefgh" [] 1000 false
    (by decide) (by decide)
  have h4 := token_validation_cases.2.2.2.1 "ghp_abcdefgh" [] 1000
    (by decide) (by decide)
  have h5 := token_validation_cases.2.2.2.2.1 "ghp_abcdefgh" [] 1000
    (by decide) (by decide)
  have h6 := token_validation_cases.2.2.2.2.2 "ghp_abcdefgh" [] 1000
    (by decide) (by decide)
  refine ⟨?_, ?_, ?_, ?_, ?_, h6.1, h6.2⟩
  · simpa using h1
  · simpa [assocSet, strTake] using h2
  · simpa [assocSet, strTake] using h3
  · simpa using h4
  · simpa [assocSet, strTake] using h5

/-! ## Registry fetching (`fetch_registry`, lines 445-475) -/

/-- JSON values, as far as `fetch_registry` observes them. -/
inductive JVal where
  | jobj : List (String × JVal) → JVal
  | jarr : List JVal → JVal
  | jstr : String → JVal
  | jnum : Int → JVal
  | jbool : Bool → JVal
  | jnull : JVal

/-- Python truthiness of a JSON value (empty containers, "", 0, False
and None are falsey). -/
def jTruthy : JVal → Bool
  | JVal.jobj l => !l.isEmpty
  | JVal.jarr l => !l.isEmpty
  | JVal.jstr s => decide (s ≠ "")
  | JVal.jnum n => decide (n ≠ 0)
  | JVal.jbool b => b
  | JVal.jnull => false

/-- Whether a value is a JSON object (a Python dict, on which `.get`
is defined). -/
def isJObj : JVal → Bool
  | JVal.jobj _ => true
  | _ => false

/-- The empty catalog returned on failure. -/
def emptyCatalog : JVal := JVal.jobj [("plugins", JVal.jarr [])]

/-- Uncaught Python exceptions escaping `fetch_registry`. -/
inductive PyExc
  | attributeError
deriving DecidableEq

/-- Outcome of the registry HTTP fetch: a network error (after retries),
or a response with a status code and, when the body parses as JSON, the
parsed value (`none` = `json.JSONDecodeError`). -/
inductive FetchResp
  | netErr
  | resp (status : Nat) (body : Option JVal)

/-- Registry-cache state of the manager. -/
structure RegState where
  registry_cache : Option JVal
  registry_cache_time : Option Nat

/-- Truthiness of the stored timestamp (a float in Python; zero only at
the epoch). -/
def pyTruthyTime : Option Nat → Bool
  | none => false
  | some t => decide (t ≠ 0)

/-- The cache-validity condition of lines 457-459: cached value truthy,
cache time truthy, no forced refresh, and age below 300 seconds. -/
def regCacheFresh (st : RegState) (now : Nat) (force : Bool) : Bool :=
  (match st.registry_cache with
    | some v => jTruthy v
    | none => false) &&
  pyTruthyTime st.registry_cache_time && !force &&
  decide (now - st.registry_cache_time.getD 0 < 300)

/-- Embedding of `fetch_registry` (lines 445-475).  The result is the
returned value or an uncaught exception, the new cache state, and
whether a network request was made.  `raise_for_status` on a status of
400 or above raises `requests.HTTPError`, which the
`requests.RequestException` handler catches; a body that fails to parse
raises `json.JSONDecodeError`, also caught.  A body parsing to a
non-object is stored in the cache and then raises `AttributeError` at
the `registry_cache.get('plugins', [])` call of line 468, which no
handler catches. -/
def fetch_registry_model (st : RegState) (now : Nat) (force : Bool)
    (resp : FetchResp) : Except PyExc JVal × RegState × Bool :=
  if regCacheFresh st now force then
    (Except.ok (st.registry_cache.getD JVal.jnull), st, false)
  else
    match resp with
    | FetchResp.netErr => (Except.ok emptyCatalog, st, true)
    | FetchResp.resp status body =>
      if status ≥ 400 then (Except.ok emptyCatalog, st, true)
      else
        match body with
        | none => (Except.ok emptyCatalog, st, true)
        | some v =>
          let st' : RegState :=
            { registry_cache := some v, registry_cache_time := some now }
          if isJObj v then (Except.ok v, st', true)
          else (Except.error PyExc.attributeError, st', true)

/-- Counterexample to C7 as stated: a 200 response whose body parses to
a JSON array (not an object) makes `fetch_registry` raise an uncaught
`AttributeError` at `self.registry_cache.get('plugins', [])` — the
function neither returns a catalog dictionary nor avoids raising. -/
theorem fetch_registry_raises_counterexample :
    (fetch_registry_model { registry_cache := none, registry_cache_time := none }
        1000 false (FetchResp.resp 200 (some (JVal.jarr [])))).1
      = Except.error PyExc.attributeError := rfl

/-- C7 (amended): network failure, HTTP error status, and JSON parse
failure all return the empty catalog without raising and without
touching the cache; a fresh truthy cache entry is returned without a
network request unless `force_refresh`; a 200 response parsing to a
JSON object is returned and cached, and if non-empty is then served
from the cache for 300 seconds; but a body parsing to a non-object
value raises an uncaught `AttributeError` (after polluting the cache). -/
theorem fetch_registry_fails_open :
    (∀ st now force, regCacheFresh st now force = false →
      fetch_registry_model st now force FetchResp.netErr
        = (Except.ok emptyCatalog, st, true)) ∧
    (∀ st now force status body, regCacheFresh st now force = false →
      status ≥ 400 →
      fetch_registry_model st now force (FetchResp.resp status body)
        = (Except.ok emptyCatalog, st, true)) ∧
    (∀ st now force status, regCacheFresh st now force = false →
      status < 400 →
      fetch_registry_model st now force (FetchResp.resp status none)
        = (Except.ok emptyCatalog, st, true)) ∧
    (∀ st now force v, regCacheFresh st now force = true →
      st.registry_cache = some v →
      fetch_registry_model st now force FetchResp.netErr = (Except.ok v, st, false)) ∧
    (∀ st now force status v, regCacheFresh st now force = false →
      status < 400 → isJObj v = true →
      fetch_registry_model st now force (FetchResp.resp status (some v))
        = (Except.ok v,
            { registry_cache := some v, registry_cache_time := some now }, true)) ∧
    (∀ now now' v resp', isJObj v = true → jTruthy v = true → now ≠ 0 →
      now' - now < 300 →
      fetch_registry_model
          { registry_cache := some v, registry_cache_time := some now }
          now' false resp'
        = (Except.ok v,
            { registry_cache := some v, registry_cache_time := some now },
            false)) := by
  refine ⟨?_, ?_, ?_, ?_, ?_, ?_⟩
  · intro st now force hmiss
    simp [fetch_registry_model, hmiss]
  · intro st now force status body hmiss hstatus
    simp [fetch_registry_model, hmiss, hstatus]
  · intro st now force status hmiss hstatus
    simp [fetch_registry_model, hmiss, Nat.not_le.mpr hstatus]
  · intro st now force v hfresh hcache
    simp [fetch_registry_model, hfresh, hcache]
  · intro st now force status v hmiss hstatus hobj
    simp [fetch_registry_model, hmiss, Nat.not_le.mpr hstatus, hobj]
  · intro now now' v resp' hobj htr hnz hage
    have hfresh : regCacheFresh
        { registry_cache := some v, registry_cache_time := some now } now' false
        = true := by
      simp [regCacheFresh, pyTruthyTime, htr, hnz, hage]
    simp [fetch_registry_model, hfresh]

/-- Witness for the fail-open claim: each case instantiated concretely
(empty state, time 1000, a 404, an unparsable body, a cached catalog,
and an object body that is then served from the cache). -/
theorem fetch_registry_fails_open_witness :
    fetch_registry_model { registry_cache := none, registry_cache_time := none }
        1000 false FetchResp.netErr
      = (Except.ok emptyCatalog, { registry_cache := none, registry_cache_time := none }, true) ∧
    fetch_registry_model { registry_cache := none, registry_cache_time := none }
        1000 false (FetchResp.resp 404 none)
      = (Except.ok emptyCatalog, { registry_cache := none, registry_cache_time := none }, true) ∧
    fetch_registry_model { registry_cache := none, registry_cache_time := none }
        1000 false (FetchResp.resp 200 none)
      = (Except.ok emptyCatalog, { registry_cache := none, registry_cache_time := none }, true) ∧
    fetch_registry_model
        { registry_cache := some emptyCatalog, registry_cache_time := some 800 }
        1000 false FetchResp.netErr
      = (Except.ok emptyCatalog,
          { registry_cache := some emptyCatalog, registry_cache_time := some 800 },
          false) ∧
    fetch_registry_model { registry_cache := none, registry_cache_time := none }
        1000 false (FetchResp.resp 200 (some emptyCatalog))
      = (Except.ok emptyCatalog,
          { registry_cache := some emptyCatalog, registry_cache_time := some 1000 },
          true) ∧
    fetch_registry_model
        { registry_cache := some emptyCatalog, registry_cache_time := some 1000 }
        1100 false FetchResp.netErr
      = (Except.ok emptyCatalog,
          { registry_cache := some emptyCatalog, registry_cache_time := some 1000 },
          false) := by
  refine ⟨?_, ?_, ?_, ?_, ?_, ?_⟩
  · exact fetch_registry_fails_open.1 _ 1000 false (by rfl)
  · exact fetch_registry_fails_open.2.1 _ 1000 false 404 none (by rfl) (by omega)
  · exact fetch_registry_fails_open.2.2.1 _ 1000 false 200 (by rfl) (by omega)
  · exact fetch_registry_fails_open.2.2.2.1 _ 1000 false emptyCatalog (by rfl) rfl
  · exact fetch_registry_fails_open.2.2.2.2.1 _ 1000 false 200 emptyCatalog
      (by rfl) (by omega) (by rfl)
  · exact fetch_registry_fails_open.2.2.2.2.2 1000 1100 emptyCatalog
      FetchResp.netErr (by rfl) (by rfl) (by omega) (by omega)

/-! ## Uninstall (`uninstall_plugin`, lines 1722-1748, and
`_find_plugin_path`, lines 1689-1720) -/

/-- State visible to `_find_plugin_path`: ids installed in the
configured plugins directory, ids in the standard `plugins/` directory,
and whether the two directories are the same path. -/
structure UFs where
  conf : List String
  std : List String
  sameDir : Bool
deriving DecidableEq

/-- Where a plugin directory was found. -/
inductive PluginLoc
  | confLoc
  | stdLoc
deriving DecidableEq

/-- Embedding of `_find_plugin_path` (lines 1689-1720): the configured
directory first, then the standard directory when it is a different
path. -/
def find_plugin_path (fs : UFs) (pid : String) : Option PluginLoc :=
  if pid ∈ fs.conf then some PluginLoc.confLoc
  else if fs.sameDir = false ∧ pid ∈ fs.std then some PluginLoc.stdLoc
  else none

/-- Embedding of `uninstall_plugin` (lines 1722-1748) over the idealized
filesystem (`_safe_remove_directory` succeeds): a missing directory is
success with no change; a found directory is removed. -/
def uninstall_plugin_model (fs : UFs) (pid : String) : Bool × UFs :=
  match find_plugin_path fs pid with
  | none => (true, fs)
  | some PluginLoc.confLoc =>
    (true, { fs with conf := fs.conf.filter (fun x => decide (x ≠ pid)) })
  | some PluginLoc.stdLoc =>
    (true, { fs with std := fs.std.filter (fun x => decide (x ≠ pid)) })

/-- C10: for a plugin id with no installed directory, `uninstall_plugin`
returns success without modifying the filesystem; and two consecutive
calls both return success and leave the plugin directory absent. -/
theorem uninstall_plugin_idempotent :
    (∀ fs pid, find_plugin_path fs pid = none →
      uninstall_plugin_model fs pid = (true, fs)) ∧
    (∀ fs pid,
      (uninstall_plugin_model fs pid).1 = true ∧
      (uninstall_plugin_model (uninstall_plugin_model fs pid).2 pid).1 = true ∧
      find_plugin_path
        (uninstall_plugin_model (uninstall_plugin_model fs pid).2 pid).2 pid
        = none) := by
  have hfilter : ∀ (l : List String) (pid : String),
      pid ∉ l.filter (fun x => decide (x ≠ pid)) := by
    intro l pid hmem
    rcases List.mem_filter.mp hmem with ⟨_, hne⟩
    simp at hne
  constructor
  · intro fs pid hnone
    simp [uninstall_plugin_model, hnone]
  · intro fs pid
    have h1 : (uninstall_plugin_model fs pid).1 = true := by
      unfold uninstall_plugin_model
      rcases find_plugin_path fs pid with _ | loc
      · rfl
      · cases loc <;> rfl
    refine ⟨h1, ?_, ?_⟩
    all_goals
      unfold uninstall_plugin_model find_plugin_path
      by_cases hc : pid ∈ fs.conf
      all_goals by_cases hs : fs.sameDir = false ∧ pid ∈ fs.std
      all_goals simp [hc, hs, hfilter]

/-- Witness for uninstall idempotence: an absent plugin id is a success
with no filesystem change, and a present one is gone after two calls. -/
theorem uninstall_plugin_idempotent_witness :
    uninstall_plugin_model { conf := ["a"], std := [], sameDir := true } "b"
      = (true, { conf := ["a"], std := [], sameDir := true }) ∧
    ((uninstall_plugin_model { conf := ["a"], std := ["a"], sameDir := false } "a").1
        = true ∧
      (uninstall_plugin_model
        (uninstall_plugin_model
          { conf := ["a"], std := ["a"], sameDir := false } "a").2 "a").1 = true ∧
      find_plugin_path
        (uninstall_plugin_model
          (uninstall_plugin_model
            { conf := ["a"], std := ["a"], sameDir := false } "a").2 "a").2 "a"
        = none) :=
  ⟨uninstall_plugin_idempotent.1 { conf := ["a"], std := [], sameDir := true } "b"
      (by decide),
    uninstall_plugin_idempotent.2 { conf := ["a"], std := ["a"], sameDir := false } "a"⟩

end StoreManager
